import Mathlib

/-!
Shallow embedding of the `go-sqlite` wrapper (package `sqlite`, file
`sqlite.go`) and proofs about its observable contract.

The repository is a thin convenience layer over SQLite via the
`mattn/go-sqlite3` driver: a dual connection-pool manager (`Open`,
`openMemory`, `Close`), a migration runner (`Migrate`, `migrateFile`),
transaction wrappers carrying a frozen timestamp (`BeginTx`,
`BeginReadTx`, `Tx.Now`), a nullable-time codec (`NullTime.Scan`,
`NullTime.Value`), and a pagination-clause formatter
(`FormatLimitOffset`).

External collaborators (the SQLite engine, the filesystem, the Go
`time` package's RFC 3339 formatter/parser) are modelled explicitly:
stateful driver calls become explicit state passing with failure
oracles, and `time.Format`/`time.Parse` for the `time.RFC3339` layout
are embedded at the character-list level following Go's
`time/format_rfc3339.go` fast path (which decides exactly the inputs
these claims exercise; `time.Parse`'s general-layout fallback accepts
the same strings on every output of `Format`).
-/

deriving instance DecidableEq for Except

namespace GoSqlite

/-! ## Pagination formatter (`FormatLimitOffset`, sqlite.go:227-236)

Go's `fmt.Sprintf("%d", x)` on an `int` renders the decimal value with
a leading minus sign for negatives, which is exactly `toString` on
`Int` in Lean. The function is translated branch for branch. -/

/-- Model of `FormatLimitOffset`: builds the SQL pagination clause.
`fmt.Sprintf(`LIMIT %d OFFSET %d`, limit, offset)` is rendered via
`toString : Int → String`. -/
def FormatLimitOffset (limit offset : Int) : String :=
  if limit > 0 && offset > 0 then
    "LIMIT " ++ toString limit ++ " OFFSET " ++ toString offset
  else if limit > 0 then
    "LIMIT " ++ toString limit
  else if offset > 0 then
    "OFFSET " ++ toString offset
  else
    ""

/-! ## Connection-pool manager (`Open`/`openMemory`, sqlite.go:36-89)

The Go code builds driver DSN strings by concatenation:
`baseDSN = dsn + "?_journal_mode=wal&_foreign_keys=on&_busy_timeout=5000"`,
`roDSN = baseDSN + "&mode=ro"`, and for `:memory:` a single shared DSN
`"file::memory:?cache=shared&_foreign_keys=on"` used for both pools.
We model a DSN structurally as a path plus its query parameters, with
`render` recovering the literal string the Go code produces.  The
driver and `os.MkdirAll` are external, so `Open` is parameterized by
failure oracles and additionally returns the trace of external effects
it attempted, in order. -/

/-- Model of a go-sqlite3 DSN: file path plus query-string parameters in
order of concatenation. -/
structure DSNConf where
  path : String
  params : List (String × String)
deriving DecidableEq, Repr

/-- Renders a `DSNConf` to the literal DSN string the Go code builds. -/
def DSNConf.render (c : DSNConf) : String :=
  c.path ++ "?" ++ String.intercalate "&" (c.params.map fun p => p.1 ++ "=" ++ p.2)

/-- Query parameters of `baseDSN` (sqlite.go:49). -/
def baseParams : List (String × String) :=
  [("_journal_mode", "wal"), ("_foreign_keys", "on"), ("_busy_timeout", "5000")]

/-- The shared in-memory DSN (sqlite.go:71). -/
def memoryConf : DSNConf :=
  ⟨"file::memory:", [("cache", "shared"), ("_foreign_keys", "on")]⟩

/-- The go-sqlite3 driver opens a connection read-only exactly when the
DSN carries the `mode=ro` query parameter; such a connection rejects
every mutating statement at the driver level. -/
def DSNConf.readOnly (c : DSNConf) : Prop := ("mode", "ro") ∈ c.params

instance (c : DSNConf) : Decidable c.readOnly := by
  unfold DSNConf.readOnly; infer_instance

/-- External side effects attempted by `Open`, in order: directory
creation (`os.MkdirAll`), driver pool creation (`sql.Open`), pool
close (`rwDB.Close` on the error path). -/
inductive OpenEffect where
  | mkdirAll (dir : String)
  | sqlOpen (conf : DSNConf)
  | closePool (conf : DSNConf)
deriving DecidableEq, Repr

/-- Failure oracles for the external calls `Open` makes: `mkdirErr dir`
is the error `os.MkdirAll` would return, `openErr conf` the error
`sql.Open` would return for that DSN. -/
structure OpenEnv where
  mkdirErr : String → Option String
  openErr : DSNConf → Option String

/-- Model of `filepath.Dir` restricted to what `Open` needs: the part of
the path before the final slash (`"."` when there is no slash, `"/"`
for a file at the root).  `filepath.Dir` additionally cleans the
result, which no claim observes. -/
def filepathDir (p : String) : String :=
  match p.data.reverse.dropWhile (fun c => c ≠ '/') with
  | [] => "."
  | _ :: restRev => if restRev.isEmpty then "/" else ⟨restRev.reverse⟩

/-- Model of `openMemory` (sqlite.go:70-89): both pools are opened on
the one shared in-memory DSN; no read-only parameter is added to
either. -/
def openMemory (env : OpenEnv) :
    List OpenEffect × Except String (DSNConf × DSNConf) :=
  match env.openErr memoryConf with
  | some e => ([.sqlOpen memoryConf], .error e)
  | none =>
    -- Second `sql.Open` on the identical DSN; with a deterministic
    -- oracle it succeeds exactly when the first did.
    ([.sqlOpen memoryConf, .sqlOpen memoryConf], .ok (memoryConf, memoryConf))

/-- Model of `DB.Open` (sqlite.go:36-68): validates the DSN, dispatches
to `openMemory` for `":memory:"`, otherwise creates the containing
directory and opens the read-write pool on `baseDSN` and the read pool
on `baseDSN + "&mode=ro"`, closing the first pool if the second open
fails. Returns the effect trace together with either the error or the
pair (read-write DSN, read-only DSN) of the created pools. -/
def DB.Open (env : OpenEnv) (dsn : String) :
    List OpenEffect × Except String (DSNConf × DSNConf) :=
  if dsn = "" then ([], .error "dsn required")
  else if dsn = ":memory:" then openMemory env
  else
    match env.mkdirErr (filepathDir dsn) with
    | some e => ([.mkdirAll (filepathDir dsn)], .error e)
    | none =>
      match env.openErr ⟨dsn, baseParams⟩ with
      | some e =>
        ([.mkdirAll (filepathDir dsn), .sqlOpen ⟨dsn, baseParams⟩], .error e)
      | none =>
        match env.openErr ⟨dsn, baseParams ++ [("mode", "ro")]⟩ with
        | some e =>
          ([.mkdirAll (filepathDir dsn), .sqlOpen ⟨dsn, baseParams⟩,
            .sqlOpen ⟨dsn, baseParams ++ [("mode", "ro")]⟩,
            .closePool ⟨dsn, baseParams⟩], .error e)
        | none =>
          ([.mkdirAll (filepathDir dsn), .sqlOpen ⟨dsn, baseParams⟩,
            .sqlOpen ⟨dsn, baseParams ++ [("mode", "ro")]⟩],
           .ok (⟨dsn, baseParams⟩, ⟨dsn, baseParams ++ [("mode", "ro")]⟩))

/-- An environment in which no external call fails (used for concrete
witnesses). -/
def happyEnv : OpenEnv := ⟨fun _ => none, fun _ => none⟩

/-! ## Model of `time.Time` and the RFC 3339 codec

A Go `time.Time` is an absolute instant plus a presentation zone.  We
represent the instant by its civil fields *in UTC* (`DateTime`) plus
the nanosecond component, and keep the presentation zone as an offset
in seconds (`GoTime.offset`); `Time.UTC` keeps the instant and zeroes
the offset.  All operations the claims exercise (`IsZero`, `Equal`,
`Truncate(time.Second)`, `UTC().Format(time.RFC3339)`,
`time.Parse(time.RFC3339, ·)`) are functions of these components. -/

/-- Civil UTC fields of an instant, at nanosecond resolution. -/
structure DateTime where
  year : Int
  month : Nat
  day : Nat
  hour : Nat
  minute : Nat
  second : Nat
  nanos : Nat
deriving DecidableEq, Repr

/-- Model of `time.Time`: UTC civil fields plus the presentation-zone
offset in seconds (0 for UTC). -/
structure GoTime where
  utc : DateTime
  offset : Int
deriving DecidableEq, Repr

/-- Go's zero `time.Time`: January 1, year 1, 00:00:00 UTC. -/
def zeroDateTime : DateTime := ⟨1, 1, 1, 0, 0, 0, 0⟩

/-- The zero `time.Time` value (`time.Time{}`), whose location is UTC. -/
def zeroGoTime : GoTime := ⟨zeroDateTime, 0⟩

/-- Model of `Time.IsZero`: the instant equals Go's zero time
(zone-independent, like `sec() == 0 && nsec() == 0`). -/
def GoTime.IsZero (t : GoTime) : Prop := t.utc = zeroDateTime

instance (t : GoTime) : Decidable t.IsZero := by
  unfold GoTime.IsZero; infer_instance

/-- Model of `Time.UTC`: same instant, presentation zone set to UTC. -/
def GoTime.UTC (t : GoTime) : GoTime := ⟨t.utc, 0⟩

/-- Model of `Time.Truncate(time.Second)`: rounding the instant down to
a whole-second boundary zeroes the nanosecond component (civil fields
encode the instant as second-boundary plus nonnegative nanoseconds, so
flooring drops exactly the nanoseconds, for every representable
instant). -/
def DateTime.truncateSec (d : DateTime) : DateTime :=
  { d with nanos := 0 }

/-- `Truncate(time.Second)` on a `time.Time` keeps the zone. -/
def GoTime.truncateSec (t : GoTime) : GoTime :=
  ⟨t.utc.truncateSec, t.offset⟩

/-- Model of `isLeap` (time/time.go): `year%4 == 0 && (year%100 != 0 ||
year%400 == 0)`. -/
def isLeap (y : Int) : Bool :=
  y % 4 == 0 && (y % 100 != 0 || y % 400 == 0)

/-- Model of `daysIn(m, year)` (time/time.go) for months 1..12: the
number of days of the month, 29 for February of a leap year. -/
def daysIn (y : Int) (m : Nat) : Nat :=
  match m with
  | 1 => 31
  | 2 => if isLeap y then 29 else 28
  | 3 => 31
  | 4 => 30
  | 5 => 31
  | 6 => 30
  | 7 => 31
  | 8 => 31
  | 9 => 30
  | 10 => 31
  | 11 => 30
  | 12 => 31
  | _ => 0

/-- Field validity of a `DateTime`, as maintained by every `time.Time`
(Go normalizes out-of-range fields at construction). -/
def DateTime.valid (d : DateTime) : Bool :=
  1 ≤ d.month && d.month ≤ 12 &&
  1 ≤ d.day && d.day ≤ daysIn d.year d.month &&
  d.hour ≤ 23 && d.minute ≤ 59 && d.second ≤ 59 &&
  d.nanos < 1000000000

/-! ### Digit rendering and scanning

`appendInt(b, x, width)` (time/format.go) writes the decimal digits of
`|x|` after a minus sign for negative `x`, left-padded with zeros to
`width`; widths 2 and 4 with in-range values take the fast path that
emits exactly the two or four divmod digits.  Digits are mapped to
characters the way Go does (`'0'+v`), via an explicit table. -/

/-- Digit to character, `'0' + d` for `d ≤ 9`. -/
def digitChar : Nat → Char
  | 0 => '0' | 1 => '1' | 2 => '2' | 3 => '3' | 4 => '4'
  | 5 => '5' | 6 => '6' | 7 => '7' | 8 => '8' | 9 => '9'
  | _ => '?'

/-- Character to digit value; 10 marks a non-digit. -/
def digitVal : Char → Nat
  | '0' => 0 | '1' => 1 | '2' => 2 | '3' => 3 | '4' => 4
  | '5' => 5 | '6' => 6 | '7' => 7 | '8' => 8 | '9' => 9
  | _ => 10

/-- Model of `isDigit`: `'0' ≤ c && c ≤ '9'`. -/
def isDigitChar (c : Char) : Bool := Nat.ble (digitVal c) 9

/-- General zero-padding path of `appendInt`: all decimal digits of
`n`, left-padded with zeros to the width. -/
def padTo (width n : Nat) : List Char :=
  let ds := Nat.toDigits 10 n
  List.replicate (width - ds.length) '0' ++ ds

/-- `appendInt` at width 4 on a nonnegative value (time/format.go fast
path for `width == 4 && u < 1e4`). -/
def pad4 (n : Nat) : List Char :=
  if n < 10000 then
    [digitChar (n / 1000), digitChar (n / 100 % 10),
     digitChar (n / 10 % 10), digitChar (n % 10)]
  else padTo 4 n

/-- `appendInt` at width 2 on a nonnegative value. -/
def pad2 (n : Nat) : List Char :=
  if n < 100 then [digitChar (n / 10), digitChar (n % 10)]
  else padTo 2 n

/-- `appendInt(b, x, 4)` as used for the year field. -/
def yearChars (y : Int) : List Char :=
  if y < 0 then '-' :: pad4 y.natAbs else pad4 y.natAbs

/-- Model of `Time.Format(time.RFC3339)` on a UTC time
(`appendFormatRFC3339` with `nanos=false`): year (width 4), month,
day, hour, minute, second (width 2 each) with the fixed separators and
the trailing `Z` of a zero zone offset.  Fractional seconds are not
part of the `time.RFC3339` layout and are dropped. -/
def formatRFC3339Chars (d : DateTime) : List Char :=
  yearChars d.year ++ ('-' :: (pad2 d.month ++ ('-' :: (pad2 d.day ++
  ('T' :: (pad2 d.hour ++ (':' :: (pad2 d.minute ++
  (':' :: (pad2 d.second ++ ['Z']))))))))))

/-- String form of `Format(time.RFC3339)` on a UTC instant. -/
def formatRFC3339 (d : DateTime) : String := ⟨formatRFC3339Chars d⟩

/-! ### Calendar arithmetic

Needed only to normalize a parsed local time with an explicit numeric
zone offset to UTC (`t.addSec(-zoneOffset)` in `parseRFC3339`).  Days
are counted from 1970-01-01; the field/day conversions follow the
standard civil-calendar algorithms (equivalent to Go's `absDate` /
`daysSinceEpoch`).  `Int.ediv`/`Int.emod` give floor semantics for the
positive divisors used here. -/

/-- Days since 1970-01-01 of a civil date. -/
def daysFromCivil (y : Int) (m d : Nat) : Int :=
  let yAdj : Int := if m ≤ 2 then y - 1 else y
  let era : Int := yAdj.ediv 400
  let yoe : Nat := (yAdj - era * 400).toNat
  let doy : Nat := (153 * (if 2 < m then m - 3 else m + 9) + 2) / 5 + d - 1
  let doe : Nat := yoe * 365 + yoe / 4 - yoe / 100 + doy
  era * 146097 + (doe : Int) - 719468

/-- Civil date of a day count since 1970-01-01. -/
def civilFromDays (z : Int) : Int × Nat × Nat :=
  let zShift : Int := z + 719468
  let era : Int := zShift.ediv 146097
  let doe : Nat := (zShift - era * 146097).toNat
  let yoe : Nat := (doe - doe / 1460 + doe / 36524 - doe / 146096) / 365
  let y : Int := (yoe : Int) + era * 400
  let doy : Nat := doe - (365 * yoe + yoe / 4 - yoe / 100)
  let mp : Nat := (5 * doy + 2) / 153
  let d : Nat := doy - (153 * mp + 2) / 5 + 1
  let m : Nat := if mp < 10 then mp + 3 else mp - 9
  (if m ≤ 2 then y + 1 else y, m, d)

/-- Absolute second count (since the Unix epoch) of valid civil
fields. -/
def DateTime.toAbsSeconds (d : DateTime) : Int :=
  daysFromCivil d.year d.month d.day * 86400 +
    (d.hour * 3600 + d.minute * 60 + d.second : Nat)

/-- Civil fields of an absolute second count plus nanoseconds. -/
def dateTimeOfAbsSeconds (z : Int) (nanos : Nat) : DateTime :=
  let days := z.ediv 86400
  let sod := (z.emod 86400).toNat
  let c := civilFromDays days
  ⟨c.1, c.2.1, c.2.2, sod / 3600, sod / 60 % 60, sod % 60, nanos⟩

/-! ### `time.Parse(time.RFC3339, ·)`

Translated from the strict fast path `parseRFC3339`
(time/format_rfc3339.go), which Go's `Parse` tries first for this
layout: fixed-position digit fields with range checks (day against
`daysIn(month, year)`), mandatory separators, an optional fractional
second (dot plus at least one digit, only the first nine digits
significant), and either a literal `Z` or a `±hh:mm` numeric offset
that is subtracted to reach UTC. -/

/-- Consumes exactly four decimal digits. -/
def scan4 : List Char → Option (Nat × List Char)
  | c1 :: c2 :: c3 :: c4 :: rest =>
    if isDigitChar c1 && isDigitChar c2 && isDigitChar c3 && isDigitChar c4 then
      some (((digitVal c1 * 10 + digitVal c2) * 10 + digitVal c3) * 10 + digitVal c4, rest)
    else none
  | _ => none

/-- Consumes exactly two decimal digits. -/
def scan2 : List Char → Option (Nat × List Char)
  | c1 :: c2 :: rest =>
    if isDigitChar c1 && isDigitChar c2 then
      some (digitVal c1 * 10 + digitVal c2, rest)
    else none
  | _ => none

/-- Consumes an expected literal character. -/
def expectChar (c : Char) : List Char → Option (List Char)
  | x :: rest => if x = c then some rest else none
  | [] => none

/-- Nanoseconds denoted by a fractional-digit run: only the first nine
digits are significant (`parseNanoseconds` truncates to that many),
scaled up to nanoseconds. -/
def nanosOfDigits (ds : List Char) : Nat :=
  let d9 := ds.take 9
  (d9.foldl (fun a c => a * 10 + digitVal c) 0) * 10 ^ (9 - d9.length)

/-- Consumes an optional fractional second: a dot followed by at least
one digit; absent otherwise. -/
def scanFrac (cs : List Char) : Nat × List Char :=
  match cs with
  | '.' :: c :: rest =>
    if isDigitChar c then
      let ds := (c :: rest).takeWhile isDigitChar
      (nanosOfDigits ds, (c :: rest).dropWhile isDigitChar)
    else (0, cs)
  | _ => (0, cs)

/-- Zone suffix: a lone `Z` yields the parsed fields at offset 0; a
six-character `±hh:mm` suffix (hh ≤ 23, mm ≤ 59) yields the fields
shifted by the negated offset, presented in that fixed zone. -/
def scanZone (y : Int) (mo dy h mi s ns : Nat) :
    List Char → Option GoTime
  | ['Z'] => some ⟨⟨y, mo, dy, h, mi, s, ns⟩, 0⟩
  | [sgn, h1, h2, colon, m1, m2] =>
    if (sgn = '+' || sgn = '-') && colon = ':' &&
        isDigitChar h1 && isDigitChar h2 && isDigitChar m1 && isDigitChar m2 then
      let hr := digitVal h1 * 10 + digitVal h2
      let mm := digitVal m1 * 10 + digitVal m2
      if hr ≤ 23 && mm ≤ 59 then
        let off : Int := (if sgn = '-' then -1 else 1) * ((hr * 60 + mm) * 60 : Nat)
        let localFields : DateTime := ⟨y, mo, dy, h, mi, s, ns⟩
        some ⟨dateTimeOfAbsSeconds (localFields.toAbsSeconds - off) ns, off⟩
      else none
    else none
  | _ => none

/-- Model of `time.Parse(time.RFC3339, ·)` at the character level. -/
def parseRFC3339Chars (cs : List Char) : Option GoTime :=
  (scan4 cs).bind fun (y, cs) =>
  (expectChar '-' cs).bind fun cs =>
  (scan2 cs).bind fun (mo, cs) =>
  if mo < 1 || 12 < mo then none else
  (expectChar '-' cs).bind fun cs =>
  (scan2 cs).bind fun (dy, cs) =>
  if dy < 1 || daysIn (y : Int) mo < dy then none else
  (expectChar 'T' cs).bind fun cs =>
  (scan2 cs).bind fun (h, cs) =>
  if 23 < h then none else
  (expectChar ':' cs).bind fun cs =>
  (scan2 cs).bind fun (mi, cs) =>
  if 59 < mi then none else
  (expectChar ':' cs).bind fun cs =>
  (scan2 cs).bind fun (s, cs) =>
  if 59 < s then none else
  scanZone (y : Int) mo dy h mi s (scanFrac cs).1 (scanFrac cs).2

/-- Model of `time.Parse(time.RFC3339, value)`: `none` models the error
return (in which case `Parse` also returns the zero `time.Time`). -/
def parseRFC3339 (s : String) : Option GoTime := parseRFC3339Chars s.data

/-! ## `NullTime` codec (sqlite.go:207-225)

`type NullTime time.Time`.  `Scan` receives the driver value, whose
dynamic type for go-sqlite3 is one of `nil`, `string`, `[]byte`,
`int64`, `float64`, `bool` or `time.Time`; byte slices are modelled by
the text they carry (their `string(·)` image), and `float64` payloads
are not observed by any claim so the constructor carries none. -/

/-- Dynamic value handed to `Scan` by the driver. -/
inductive GoValue where
  | null
  | str (s : String)
  | bytes (text : String)
  | int64 (i : Int)
  | float64
  | boolean (b : Bool)
  | timeVal (t : GoTime)
deriving DecidableEq, Repr

/-- The `%T` rendering of each dynamic type (`fmt.Errorf` in `Scan`). -/
def GoValue.typeName : GoValue → String
  | .null => "<nil>"
  | .str _ => "string"
  | .bytes _ => "[]uint8"
  | .int64 _ => "int64"
  | .float64 => "float64"
  | .boolean _ => "bool"
  | .timeVal _ => "time.Time"

/-- A `NullTime` is a `time.Time`. -/
abbrev NullTime := GoTime

/-- Model of `NullTime.Scan` (sqlite.go:209-218): a nil value sets the
receiver to the zero time; a string value sets the receiver to
`time.Parse(time.RFC3339, value)`'s time result with the error
discarded (`Parse` returns the zero time on error); any other value
leaves the receiver unchanged and returns the type-mismatch error.
The result pairs the updated receiver with the returned error. -/
def NullTime.Scan (n : NullTime) (value : GoValue) : NullTime × Option String :=
  match value with
  | .null => (zeroGoTime, none)
  | .str s => ((parseRFC3339 s).getD zeroGoTime, none)
  | v => (n, some ("NullTime: cannot scan to time.Time: " ++ v.typeName))

/-- Model of `NullTime.Value` (sqlite.go:220-225): the receiver is a
pointer (`none` models a nil `*NullTime`); a nil or zero receiver
yields the driver null marker, otherwise the RFC 3339 text of the
instant in UTC.  The error component is always `none`. -/
def NullTime.ValueFn (n : Option NullTime) : Option String × Option String :=
  match n with
  | none => (none, none)
  | some t => if t.IsZero then (none, none) else (some (formatRFC3339 t.utc), none)

/-! ## Transaction wrapper (`BeginTx`/`BeginReadTx`/`Tx.Now`,
sqlite.go:161-205)

`DB.Now` is the injected clock (`func() time.Time`, defaulting to
`time.Now`); we model it as a function of an abstract sample index so
that "the clock advancing between calls" is expressible.  Both begin
operations construct the `Tx` with
`now: db.Now().UTC().Truncate(time.Second)` sampled once; `Tx.Now`
returns the stored field.  Driver failures of the begin calls return
no handle and are outside these claims. -/

/-- Model of the manager as seen by the transaction wrapper: the
replaceable clock, indexed by an abstract sample instant. -/
structure GoDB where
  Now : Nat → GoTime

/-- Model of `Tx`: the wrapped `sql.Tx` carries no claim-relevant state
beyond the frozen timestamp. -/
structure GoTx where
  now : GoTime
deriving DecidableEq, Repr

/-- The timestamp both begin operations store:
`db.Now().UTC().Truncate(time.Second)`. -/
def txStamp (t : GoTime) : GoTime := t.UTC.truncateSec

/-- Model of `DB.BeginTx` (sqlite.go:163-179), sampling the clock at
instant `i`: after starting the transaction and forcing
`BEGIN IMMEDIATE`, the handle stores the frozen timestamp. -/
def GoDB.BeginTx (db : GoDB) (i : Nat) : GoTx :=
  ⟨txStamp (db.Now i)⟩

/-- Model of `DB.BeginReadTx` (sqlite.go:183-194), sampling the clock
at instant `i`. -/
def GoDB.BeginReadTx (db : GoDB) (i : Nat) : GoTx :=
  ⟨txStamp (db.Now i)⟩

/-- Model of `Tx.Now` (sqlite.go:203-205): returns the stored
timestamp; takes no clock access at all. -/
def GoTx.Now (tx : GoTx) : GoTime := tx.now

/-! ## Migration runner (`Migrate`/`migrateFile`, sqlite.go:95-139)

The SQL engine and the script filesystem are external.  The database
state is the abstract schema (a type parameter) together with the
contents of the bookkeeping table `migrations (name TEXT PRIMARY
KEY)`.  A `Script` is one glob-matched entry `migration/*.sql` plus
the outcome oracles of the driver calls its application makes:
`beginOk` for `rwDB.Begin`, `queryOk` for the `SELECT COUNT(*)`
bookkeeping query, `read` for `fs.ReadFile` (`none` is a read error),
`insertOk` for the bookkeeping `INSERT`, `commitOk` for `tx.Commit`.
Statement execution is the engine's `execSQL`, `none` being a
statement error.  Transactionality is the functional reading of
`defer tx.Rollback()`: an erring application returns the unchanged
pre-transaction state. -/

/-- External SQL engine: executing a script text transforms the schema
or fails. -/
structure SQLEngine (σ : Type) where
  execSQL : String → σ → Option σ

/-- One glob-matched migration script with its external-call oracles. -/
structure Script where
  name : String
  beginOk : Bool
  queryOk : Bool
  read : Option String
  insertOk : Bool
  commitOk : Bool
deriving DecidableEq, Repr

/-- Database state: abstract schema plus the rows of the `migrations`
table in insertion order. -/
structure DBState (σ : Type) where
  schema : σ
  migrations : List String
deriving DecidableEq, Repr

/-- Which step of `migrateFile` failed. -/
inductive MigStepErr where
  | beginFail | queryFail | readFail | execFail | insertFail | commitFail
deriving DecidableEq, Repr

/-- Error result of `Migrate`: the `CREATE TABLE` failure
(sqlite.go:97), or a `migrateFile` failure wrapped with the offending
script's name (sqlite.go:108, `migration error: name=%q err=%w`). -/
inductive MigrateErr where
  | createTable
  | script (name : String) (e : MigStepErr)
deriving DecidableEq, Repr

/-- Model of `migrateFile` (sqlite.go:114-139): begin a transaction;
query the bookkeeping count and skip if the name is recorded; read the
script, execute its text, insert the bookkeeping row, commit.  Every
failure rolls the transaction back, so the returned state is the input
state together with the step error; only a successful commit publishes
the new schema and the appended bookkeeping row. -/
def migrateFile {σ : Type} (eng : SQLEngine σ) (s : Script)
    (st : DBState σ) : DBState σ × Option MigStepErr :=
  if s.beginOk = false then (st, some .beginFail)
  else if s.queryOk = false then (st, some .queryFail)
  else if s.name ∈ st.migrations then (st, none)
  else
    match s.read with
    | none => (st, some .readFail)
    | some text =>
      match eng.execSQL text st.schema with
      | none => (st, some .execFail)
      | some sch =>
        if s.insertOk = false then (st, some .insertFail)
        else if s.commitOk = false then (st, some .commitFail)
        else (⟨sch, st.migrations ++ [s.name]⟩, none)

/-- Lexicographic (code-point-wise, equivalently UTF-8 byte-wise)
comparison of character lists, the order `sort.Strings` uses. -/
def charsLe : List Char → List Char → Bool
  | [], _ => true
  | _ :: _, [] => false
  | a :: as, b :: bs =>
    Nat.blt a.toNat b.toNat || (a.toNat == b.toNat && charsLe as bs)

/-- Go string ordering (`s1 <= s2` as `sort.Strings` sees it). -/
def strLeB (a b : String) : Bool := charsLe a.data b.data

/-- Lexicographic sort of the glob-matched scripts by name
(`sort.Strings(names)`, sqlite.go:104), via the stable insertion
sort. -/
def sortScripts (fs : List Script) : List Script :=
  fs.insertionSort (fun a b => strLeB a.name b.name = true)

instance : IsTotal Script (fun a b => strLeB a.name b.name = true) := by
  constructor
  intro x y
  show charsLe x.name.data y.name.data = true ∨ charsLe y.name.data x.name.data = true
  generalize x.name.data = as
  generalize y.name.data = bs
  induction as generalizing bs with
  | nil => exact Or.inl rfl
  | cons a as ih =>
    cases bs with
    | nil => exact Or.inr rfl
    | cons b bs =>
      rcases Nat.lt_trichotomy a.toNat b.toNat with hlt | heq | hgt
      · left
        simp [charsLe, Nat.blt_eq, hlt]
      · rcases ih bs with h | h
        · left; simp [charsLe, heq, h]
        · right; simp [charsLe, heq, h]
      · right
        simp [charsLe, Nat.blt_eq, hgt]

instance : IsTrans Script (fun a b => strLeB a.name b.name = true) := by
  constructor
  intro x y z hxy hyz
  show charsLe x.name.data z.name.data = true
  suffices h : ∀ (as bs cs : List Char), charsLe as bs = true →
      charsLe bs cs = true → charsLe as cs = true from
    h _ _ _ hxy hyz
  intro as
  induction as with
  | nil => intro bs cs h1 h2; rfl
  | cons a as ih =>
    intro bs cs h1 h2
    cases bs with
    | nil => simp [charsLe] at h1
    | cons b bs =>
      cases cs with
      | nil => simp [charsLe] at h2
      | cons c cs =>
        simp only [charsLe, Bool.or_eq_true, Bool.and_eq_true, Nat.blt_eq,
          beq_iff_eq] at h1 h2 ⊢
        rcases h1 with h1 | ⟨hab, h1⟩ <;> rcases h2 with h2 | ⟨hbc, h2⟩
        · exact Or.inl (by omega)
        · exact Or.inl (by omega)
        · exact Or.inl (by omega)
        · exact Or.inr ⟨by omega, ih bs cs h1 h2⟩

/-- The per-script loop of `Migrate` (sqlite.go:106-110): apply the
scripts in order, stopping at the first failure and wrapping it with
the offending script's name. -/
def migrateLoop {σ : Type} (eng : SQLEngine σ) :
    List Script → DBState σ → DBState σ × Option MigrateErr
  | [], st => (st, none)
  | s :: rest, st =>
    match migrateFile eng s st with
    | (st', some e) => (st', some (.script s.name e))
    | (st', none) => migrateLoop eng rest st'

/-- Model of `Migrate` (sqlite.go:95-112): ensure the bookkeeping table
exists (`createOk` is the oracle for that statement; the table itself
is part of `DBState` from the start, matching `IF NOT EXISTS`), glob
and sort the script names, and run them in order.  The returned state
is the database after the already-committed scripts. -/
def Migrate {σ : Type} (eng : SQLEngine σ) (createOk : Bool)
    (fs : List Script) (st : DBState σ) : DBState σ × Option MigrateErr :=
  if createOk = false then (st, some .createTable)
  else migrateLoop eng (sortScripts fs) st

/-! ### Concrete instances for witnesses

A small engine over schemas that are lists of executed statements, and
three scripts, one of which fails statement execution. -/

/-- Witness engine: executing the text `"BOOM"` fails; any other text
appends itself to the schema. -/
def demoEngine : SQLEngine (List String) :=
  ⟨fun text sch => if text = "BOOM" then none else some (sch ++ [text])⟩

/-- A healthy first script. -/
def demoScriptA : Script :=
  ⟨"migration/00001_a.sql", true, true, some "CREATE A", true, true⟩

/-- A script whose statement execution fails. -/
def demoScriptBad : Script :=
  ⟨"migration/00002_b.sql", true, true, some "BOOM", true, true⟩

/-- A healthy script sorting after the failing one. -/
def demoScriptC : Script :=
  ⟨"migration/00003_c.sql", true, true, some "CREATE C", true, true⟩

/-! ## Claims -/

/-- C4: for every pair of integers, `FormatLimitOffset` returns the
empty string when both are non-positive, `"LIMIT <limit> OFFSET
<offset>"` when both are positive, `"LIMIT <limit>"` when only the
limit is positive, and `"OFFSET <offset>"` when only the offset is
positive. -/
theorem formatLimitOffset_cases (limit offset : Int) :
    (limit ≤ 0 → offset ≤ 0 → FormatLimitOffset limit offset = "") ∧
    (0 < limit → 0 < offset → FormatLimitOffset limit offset =
      "LIMIT " ++ toString limit ++ " OFFSET " ++ toString offset) ∧
    (0 < limit → offset ≤ 0 → FormatLimitOffset limit offset =
      "LIMIT " ++ toString limit) ∧
    (limit ≤ 0 → 0 < offset → FormatLimitOffset limit offset =
      "OFFSET " ++ toString offset) := by
  unfold FormatLimitOffset
  refine ⟨fun h1 h2 => ?_, fun h1 h2 => ?_, fun h1 h2 => ?_, fun h1 h2 => ?_⟩ <;>
    simp [h1, h2, not_lt_of_le, lt_irrefl]

/-- Witness for C4: the four branches at the spec's sample inputs. -/
theorem formatLimitOffset_cases_witness :
    FormatLimitOffset 0 0 = "" ∧
    FormatLimitOffset 10 5 = "LIMIT 10 OFFSET 5" ∧
    FormatLimitOffset 10 0 = "LIMIT 10" ∧
    FormatLimitOffset 0 5 = "OFFSET 5" :=
  ⟨(formatLimitOffset_cases 0 0).1 (by decide) (by decide),
   (((formatLimitOffset_cases 10 5).2.1 (by decide) (by decide)).trans (by decide)),
   (((formatLimitOffset_cases 10 0).2.2.1 (by decide) (by decide)).trans (by decide)),
   (((formatLimitOffset_cases 0 5).2.2.2 (by decide) (by decide)).trans (by decide))⟩

/-- C8: `Open` on an empty location returns the configuration error
immediately: its effect trace is empty (no directory creation, no
driver open, so no pool is ever created), whatever the environment
does. -/
theorem open_empty_dsn (env : OpenEnv) :
    DB.Open env "" = ([], .error "dsn required") := rfl

/-- C9: `NullTime.Value` on a nil receiver is total and returns the
null marker with no error, the same result as for a zero instant. -/
theorem value_nil_receiver :
    NullTime.ValueFn none = (none, none) ∧
    NullTime.ValueFn (some zeroGoTime) = (none, none) ∧
    NullTime.ValueFn none = NullTime.ValueFn (some zeroGoTime) := by
  refine ⟨rfl, ?_, ?_⟩ <;>
    simp [NullTime.ValueFn, GoTime.IsZero, zeroGoTime]

/-- C6: `Scan`'s result is determined by the source value's shape: a
null source decodes to the zero instant with no error; a string source
that fails to parse under RFC 3339 is silently decoded as the zero
instant with no error, while a parsing one decodes to the parsed
instant; and every other source type leaves the receiver and yields
the type-mismatch error naming the unexpected type. -/
theorem scan_by_shape (n : NullTime) (v : GoValue) :
    (v = .null → n.Scan v = (zeroGoTime, none)) ∧
    (∀ s, v = .str s →
      (parseRFC3339 s = none → n.Scan v = (zeroGoTime, none)) ∧
      (∀ t, parseRFC3339 s = some t → n.Scan v = (t, none))) ∧
    (v ≠ .null → (∀ s, v ≠ .str s) →
      n.Scan v = (n, some ("NullTime: cannot scan to time.Time: " ++ v.typeName))) := by
  refine ⟨fun h => ?_, fun s h => ?_, fun h1 h2 => ?_⟩
  · subst h; rfl
  · subst h
    refine ⟨fun hp => ?_, fun t hp => ?_⟩ <;>
      simp [NullTime.Scan, hp]
  · cases v with
    | null => exact absurd rfl h1
    | str s => exact absurd rfl (h2 s)
    | _ => rfl

/-- Witness for C6: the three shapes at concrete inputs. -/
theorem scan_by_shape_witness :
    NullTime.Scan zeroGoTime .null = (zeroGoTime, none) ∧
    NullTime.Scan zeroGoTime (.str "not-a-time") = (zeroGoTime, none) ∧
    NullTime.Scan zeroGoTime (.int64 5) =
      (zeroGoTime, some ("NullTime: cannot scan to time.Time: " ++
        (GoValue.int64 5).typeName)) :=
  ⟨(scan_by_shape zeroGoTime .null).1 rfl,
   ((scan_by_shape zeroGoTime (.str "not-a-time")).2.1 "not-a-time" rfl).1 (by decide),
   (scan_by_shape zeroGoTime (.int64 5)).2.2 (fun h => nomatch h) (fun s h => nomatch h)⟩

/-- C10: `Scan` decodes text only from a `string`-typed source: every
non-null source of any other dynamic type — including a byte slice
whose text would parse under RFC 3339 — returns the type-mismatch
error and leaves the receiver unchanged. -/
theorem scan_rejects_nonstring (n : NullTime) :
    (∀ text, n.Scan (.bytes text) =
      (n, some "NullTime: cannot scan to time.Time: []uint8")) ∧
    (∀ text, (parseRFC3339 text).isSome → n.Scan (.bytes text) =
      (n, some "NullTime: cannot scan to time.Time: []uint8")) ∧
    (∀ i, n.Scan (.int64 i) =
      (n, some "NullTime: cannot scan to time.Time: int64")) ∧
    (n.Scan .float64 = (n, some "NullTime: cannot scan to time.Time: float64")) ∧
    (∀ b, n.Scan (.boolean b) =
      (n, some "NullTime: cannot scan to time.Time: bool")) ∧
    (∀ t, n.Scan (.timeVal t) =
      (n, some "NullTime: cannot scan to time.Time: time.Time")) :=
  ⟨fun _ => rfl, fun _ _ => rfl, fun _ => rfl, rfl, fun _ => rfl, fun _ => rfl⟩

/-- Witness for C10: a byte slice carrying text that parses under
RFC 3339 still yields the mismatch error with the receiver kept. -/
theorem scan_rejects_nonstring_witness :
    NullTime.Scan zeroGoTime (.bytes "2025-01-15T12:00:00Z") =
      (zeroGoTime, some "NullTime: cannot scan to time.Time: []uint8") :=
  (scan_rejects_nonstring zeroGoTime).2.1 "2025-01-15T12:00:00Z" (by decide)

/-- C3: both `BeginTx` and `BeginReadTx` store the clock value sampled
once at transaction start, converted to UTC and truncated to whole
seconds; `Tx.Now` is a pure projection of that stored value, so it
depends only on the sample at start (two managers whose clocks agree
at the start instant give handles with equal `Now`, however the clocks
differ afterwards), and under a substituted fixed clock both kinds of
transaction report exactly the fixed instant truncated to the second
in UTC. -/
theorem tx_now_frozen (db₁ db₂ : GoDB) (i j : Nat) (t₀ : GoTime) :
    ((db₁.BeginTx i).Now = txStamp (db₁.Now i) ∧
     (db₁.BeginReadTx i).Now = txStamp (db₁.Now i) ∧
     (∀ tx : GoTx, tx.Now = tx.now)) ∧
    (db₁.Now i = db₂.Now i →
      (db₁.BeginTx i).Now = (db₂.BeginTx i).Now ∧
      (db₁.BeginReadTx i).Now = (db₂.BeginReadTx i).Now) ∧
    (((⟨fun _ => t₀⟩ : GoDB).BeginTx i).Now = t₀.UTC.truncateSec ∧
     ((⟨fun _ => t₀⟩ : GoDB).BeginReadTx i).Now = t₀.UTC.truncateSec ∧
     ((⟨fun _ => t₀⟩ : GoDB).BeginTx i).Now = ((⟨fun _ => t₀⟩ : GoDB).BeginTx j).Now) := by
  refine ⟨⟨rfl, rfl, fun tx => rfl⟩, fun h => ?_, rfl, rfl, rfl⟩
  simp [GoDB.BeginTx, GoDB.BeginReadTx, GoTx.Now, h]

/-- Witness for C3: two clocks that agree at the start instant but
diverge afterwards give handles reporting the same frozen stamp, equal
to the fixed instant truncated to the second. -/
theorem tx_now_frozen_witness :
    ((⟨fun _ => ⟨⟨2025, 1, 15, 12, 0, 0, 987654321⟩, 3600⟩⟩ : GoDB).BeginTx 0).Now =
      ((⟨fun k => if k = 0 then ⟨⟨2025, 1, 15, 12, 0, 0, 987654321⟩, 3600⟩
          else ⟨⟨2099, 6, 1, 0, 0, 0, 0⟩, 0⟩⟩ : GoDB).BeginTx 0).Now ∧
    ((⟨fun _ => ⟨⟨2025, 1, 15, 12, 0, 0, 987654321⟩, 3600⟩⟩ : GoDB).BeginTx 0).Now =
      ⟨⟨2025, 1, 15, 12, 0, 0, 0⟩, 0⟩ :=
  ⟨((tx_now_frozen
      ⟨fun _ => ⟨⟨2025, 1, 15, 12, 0, 0, 987654321⟩, 3600⟩⟩
      ⟨fun k => if k = 0 then ⟨⟨2025, 1, 15, 12, 0, 0, 987654321⟩, 3600⟩
          else ⟨⟨2099, 6, 1, 0, 0, 0, 0⟩, 0⟩⟩
      0 0 zeroGoTime).2.1 (by decide)).1,
   by decide⟩

/-- C7 counterexample: the claim "for every location accepted by
`Open` the read pool is opened read-only" fails at the in-memory
marker: `Open` on `":memory:"` succeeds, but both pools use the one
shared DSN `"file::memory:?cache=shared&_foreign_keys=on"`, which
carries no `mode=ro` parameter, so the read pool does not reject
mutations at the driver level. -/
theorem open_memory_not_readonly_cex :
    DB.Open happyEnv ":memory:" =
      ([.sqlOpen memoryConf, .sqlOpen memoryConf], .ok (memoryConf, memoryConf)) ∧
    ¬ memoryConf.readOnly ∧
    memoryConf.render = "file::memory:?cache=shared&_foreign_keys=on" := by
  refine ⟨by decide, by decide, ?_⟩
  rfl

/-- C7 amended: for every *persistent* location accepted by `Open`
(non-empty, not the in-memory marker), the read pool's DSN is the
write pool's DSN plus the `mode=ro` parameter, which makes the driver
reject mutating statements on it — so mutations must flow through the
write pool; for the in-memory marker both pools share one read-write
DSN. -/
theorem open_persistent_read_pool_readonly (env : OpenEnv) (dsn : String)
    (effs : List OpenEffect) (rw ro : DSNConf)
    (h1 : dsn ≠ "") (h2 : dsn ≠ ":memory:")
    (h : DB.Open env dsn = (effs, .ok (rw, ro))) :
    ro.readOnly ∧ ro.path = rw.path ∧ ro.params = rw.params ++ [("mode", "ro")] := by
  unfold DB.Open at h
  rw [if_neg h1, if_neg h2] at h
  cases hmk : env.mkdirErr (filepathDir dsn) with
  | some e => rw [hmk] at h; simp at h
  | none =>
    rw [hmk] at h
    cases hb : env.openErr ⟨dsn, baseParams⟩ with
    | some e => rw [hb] at h; simp at h
    | none =>
      rw [hb] at h
      cases hr : env.openErr ⟨dsn, baseParams ++ [("mode", "ro")]⟩ with
      | some e => rw [hr] at h; simp at h
      | none =>
        rw [hr] at h
        simp only [Prod.mk.injEq, Except.ok.injEq] at h
        obtain ⟨-, h3, h4⟩ := h
        subst h3; subst h4
        exact ⟨by simp [DSNConf.readOnly], rfl, rfl⟩

/-! ### Round-trip lemmas for the RFC 3339 codec -/

/-- Reduction of `Option.bind` on a present value. -/
theorem bindSome {α β : Type} (a : α) (f : α → Option β) :
    (some a).bind f = f a := rfl

/-- The digit table decodes what it encodes. -/
theorem digitVal_digitChar : ∀ d, d < 10 → digitVal (digitChar d) = d := by decide

/-- Encoded digits satisfy the digit test. -/
theorem isDigitChar_digitChar : ∀ d, d < 10 → isDigitChar (digitChar d) = true := by
  decide

/-- Consuming an expected character that is present. -/
theorem expectChar_cons (c : Char) (rest : List Char) :
    expectChar c (c :: rest) = some rest := by
  simp [expectChar]

/-- `scan2` undoes `pad2` on a two-digit value, leaving the rest. -/
theorem scan2_pad2 (n : Nat) (h : n ≤ 99) (rest : List Char) :
    scan2 (pad2 n ++ rest) = some (n, rest) := by
  have h1 : n / 10 < 10 := by omega
  have h2 : n % 10 < 10 := by omega
  unfold pad2
  rw [if_pos (by omega : n < 100)]
  show (if (isDigitChar (digitChar (n / 10)) && isDigitChar (digitChar (n % 10))) = true
      then some (digitVal (digitChar (n / 10)) * 10 + digitVal (digitChar (n % 10)), rest)
      else none) = some (n, rest)
  rw [isDigitChar_digitChar _ h1, isDigitChar_digitChar _ h2]
  simp only [Bool.and_self, if_true, Option.some.injEq, Prod.mk.injEq]
  rw [digitVal_digitChar _ h1, digitVal_digitChar _ h2]
  exact ⟨by omega, trivial⟩

/-- `scan4` undoes `pad4` on a four-digit value, leaving the rest. -/
theorem scan4_pad4 (n : Nat) (h : n ≤ 9999) (rest : List Char) :
    scan4 (pad4 n ++ rest) = some (n, rest) := by
  have h1 : n / 1000 < 10 := by omega
  have h2 : n / 100 % 10 < 10 := by omega
  have h3 : n / 10 % 10 < 10 := by omega
  have h4 : n % 10 < 10 := by omega
  unfold pad4
  rw [if_pos (by omega : n < 10000)]
  show (if (isDigitChar (digitChar (n / 1000)) && isDigitChar (digitChar (n / 100 % 10)) &&
        isDigitChar (digitChar (n / 10 % 10)) && isDigitChar (digitChar (n % 10))) = true
      then some (((digitVal (digitChar (n / 1000)) * 10 + digitVal (digitChar (n / 100 % 10))) * 10 +
        digitVal (digitChar (n / 10 % 10))) * 10 + digitVal (digitChar (n % 10)), rest)
      else none) = some (n, rest)
  rw [isDigitChar_digitChar _ h1, isDigitChar_digitChar _ h2,
    isDigitChar_digitChar _ h3, isDigitChar_digitChar _ h4]
  simp only [Bool.and_self, if_true, Option.some.injEq, Prod.mk.injEq]
  rw [digitVal_digitChar _ h1, digitVal_digitChar _ h2,
    digitVal_digitChar _ h3, digitVal_digitChar _ h4]
  exact ⟨by omega, trivial⟩

/-- No month has more than 31 days. -/
theorem daysIn_le (y : Int) (m : Nat) : daysIn y m ≤ 31 := by
  unfold daysIn
  split <;> (try split) <;> omega

/-- Parsing inverts formatting for every valid instant whose year has
at most four digits: the result is the instant truncated to whole
seconds, presented in UTC. -/
theorem parse_format_roundtrip (d : DateTime) (hv : d.valid = true)
    (hy0 : 0 ≤ d.year) (hy : d.year ≤ 9999) :
    parseRFC3339 (formatRFC3339 d) = some ⟨d.truncateSec, 0⟩ := by
  have hb : 1 ≤ d.month ∧ d.month ≤ 12 ∧ 1 ≤ d.day ∧
      d.day ≤ daysIn d.year d.month ∧ d.hour ≤ 23 ∧ d.minute ≤ 59 ∧
      d.second ≤ 59 ∧ d.nanos < 1000000000 := by
    unfold DateTime.valid at hv
    simp only [Bool.and_eq_true, decide_eq_true_eq] at hv
    tauto
  obtain ⟨mo1, mo2, dy1, dy2, hh, hmi, hs, -⟩ := hb
  have hyn : (d.year.natAbs : Int) = d.year := Int.natAbs_of_nonneg hy0
  have hyle : d.year.natAbs ≤ 9999 := by omega
  show parseRFC3339Chars (formatRFC3339Chars d) = _
  unfold formatRFC3339Chars yearChars
  rw [if_neg (by omega : ¬ d.year < 0)]
  unfold parseRFC3339Chars
  rw [scan4_pad4 d.year.natAbs hyle, bindSome]
  simp only [hyn]
  rw [expectChar_cons, bindSome]
  rw [scan2_pad2 d.month (by omega), bindSome]
  rw [if_neg (by simp only [Bool.or_eq_true, decide_eq_true_eq]; omega)]
  rw [expectChar_cons, bindSome]
  rw [scan2_pad2 d.day (by have := daysIn_le d.year d.month; omega), bindSome]
  rw [if_neg (by simp only [Bool.or_eq_true, decide_eq_true_eq]; omega)]
  rw [expectChar_cons, bindSome]
  rw [scan2_pad2 d.hour (by omega), bindSome]
  rw [if_neg (by omega : ¬ 23 < d.hour)]
  rw [expectChar_cons, bindSome]
  rw [scan2_pad2 d.minute (by omega), bindSome]
  rw [if_neg (by omega : ¬ 59 < d.minute)]
  rw [expectChar_cons, bindSome]
  rw [scan2_pad2 d.second (by omega), bindSome]
  rw [if_neg (by omega : ¬ 59 < d.second)]
  rfl

/-- C5 (amended): for every present instant whose UTC year lies in
0..9999, encoding with `Value` and decoding the produced text with
`Scan` yields the same instant truncated to whole seconds (presented
in UTC); encoding an absent (zero) instant yields the null marker, and
decoding the null marker yields the zero instant. -/
theorem nullTime_roundtrip (t : GoTime) (n : NullTime) :
    (t.utc.valid = true → 0 ≤ t.utc.year → t.utc.year ≤ 9999 → ¬ t.IsZero →
      NullTime.ValueFn (some t) = (some (formatRFC3339 t.utc), none) ∧
      NullTime.Scan n (.str (formatRFC3339 t.utc)) = (⟨t.utc.truncateSec, 0⟩, none)) ∧
    (t.IsZero → NullTime.ValueFn (some t) = (none, none)) ∧
    NullTime.Scan n .null = (zeroGoTime, none) := by
  refine ⟨fun hv h0 h9 hz => ⟨?_, ?_⟩, fun hz => ?_, rfl⟩
  · simp [NullTime.ValueFn, hz]
  · simp [NullTime.Scan, parse_format_roundtrip t.utc hv h0 h9]
  · simp [NullTime.ValueFn, hz]

/-- Witness for C5's amended theorem: a present instant with non-UTC
presentation and half a second of nanoseconds round-trips to itself
truncated to the second in UTC. -/
theorem nullTime_roundtrip_witness :
    NullTime.ValueFn (some ⟨⟨2025, 1, 15, 12, 0, 0, 500000000⟩, 3600⟩) =
      (some (formatRFC3339 ⟨2025, 1, 15, 12, 0, 0, 500000000⟩), none) ∧
    NullTime.Scan zeroGoTime (.str (formatRFC3339 ⟨2025, 1, 15, 12, 0, 0, 500000000⟩)) =
      (⟨⟨2025, 1, 15, 12, 0, 0, 0⟩, 0⟩, none) :=
  (nullTime_roundtrip ⟨⟨2025, 1, 15, 12, 0, 0, 500000000⟩, 3600⟩ zeroGoTime).1
    (by decide) (by decide) (by decide) (by decide)

/-- C5 counterexample: the claim quantifies over *every* present
instant, but the round trip fails for 10000-01-01T00:00:00 UTC — a
valid, non-zero `time.Time`.  `Value` formats its year as the
five-character `10000` (`appendInt` pads to four digits but never
truncates), `time.Parse(time.RFC3339, ·)` requires exactly four year
digits and fails, and `Scan` silently stores the zero time, which
differs from the original at second precision. -/
theorem nullTime_roundtrip_cex :
    ¬ (⟨⟨10000, 1, 1, 0, 0, 0, 0⟩, 0⟩ : GoTime).IsZero ∧
    (⟨10000, 1, 1, 0, 0, 0, 0⟩ : DateTime).valid = true ∧
    NullTime.ValueFn (some ⟨⟨10000, 1, 1, 0, 0, 0, 0⟩, 0⟩) =
      (some "10000-01-01T00:00:00Z", none) ∧
    NullTime.Scan zeroGoTime (.str "10000-01-01T00:00:00Z") = (zeroGoTime, none) ∧
    zeroGoTime.utc ≠ (⟨10000, 1, 1, 0, 0, 0, 0⟩ : DateTime).truncateSec := by
  decide

/-! ### Migration-runner lemmas -/

/-- Unfolding of the loop on a non-empty script list. -/
theorem migrateLoop_cons {σ : Type} (eng : SQLEngine σ) (s : Script)
    (rest : List Script) (st : DBState σ) :
    migrateLoop eng (s :: rest) st =
      match migrateFile eng s st with
      | (st', some e) => (st', some (.script s.name e))
      | (st', none) => migrateLoop eng rest st' := rfl

/-- A failing `migrateFile` rolls back: the state is unchanged. -/
theorem migrateFile_error_state {σ : Type} {eng : SQLEngine σ} {s : Script}
    {st st' : DBState σ} {e : MigStepErr}
    (h : migrateFile eng s st = (st', some e)) : st' = st := by
  unfold migrateFile at h
  repeat' split at h
  all_goals simp_all

/-- A `migrateFile` failure at a step past the bookkeeping check means
the script's name was not recorded (and, by rollback, stays absent). -/
theorem migrateFile_error_not_recorded {σ : Type} {eng : SQLEngine σ}
    {s : Script} {st st' : DBState σ} {e : MigStepErr}
    (h : migrateFile eng s st = (st', some e))
    (he1 : e ≠ .beginFail) (he2 : e ≠ .queryFail) : s.name ∉ st.migrations := by
  unfold migrateFile at h
  repeat' split at h
  all_goals simp_all

/-- Facts from a successful `migrateFile`: the begin and bookkeeping
query succeeded, the script's name is recorded afterwards, and every
previously recorded name persists. -/
theorem migrateFile_success {σ : Type} {eng : SQLEngine σ} {s : Script}
    {st st' : DBState σ} (h : migrateFile eng s st = (st', none)) :
    s.beginOk = true ∧ s.queryOk = true ∧ s.name ∈ st'.migrations ∧
    ∀ x ∈ st.migrations, x ∈ st'.migrations := by
  unfold migrateFile at h
  repeat' split at h
  all_goals simp_all
  subst h
  exact ⟨by simp, fun x hx => by simp [hx]⟩

/-- A successful `migrateFile` on an unrecorded name appends exactly
that name to the bookkeeping table. -/
theorem migrateFile_success_fresh {σ : Type} {eng : SQLEngine σ} {s : Script}
    {st st' : DBState σ} (h : migrateFile eng s st = (st', none))
    (hn : s.name ∉ st.migrations) :
    st'.migrations = st.migrations ++ [s.name] := by
  unfold migrateFile at h
  repeat' split at h
  all_goals simp_all
  subst h
  rfl

/-- An already-recorded script is skipped: `migrateFile` is the
identity and reports no error. -/
theorem migrateFile_skip {σ : Type} (eng : SQLEngine σ) {s : Script}
    {st : DBState σ} (hb : s.beginOk = true) (hq : s.queryOk = true)
    (hm : s.name ∈ st.migrations) :
    migrateFile eng s st = (st, none) := by
  unfold migrateFile
  simp [hb, hq, hm]

/-- A failing loop decomposes: a prefix of scripts ran successfully,
the failing script erred from the resulting state (left unchanged by
its rollback), and the scripts after it contribute nothing. -/
theorem migrateLoop_error {σ : Type} (eng : SQLEngine σ) (l : List Script)
    (st st' : DBState σ) (nm : String) (e : MigStepErr)
    (h : migrateLoop eng l st = (st', some (.script nm e))) :
    ∃ pre s post, l = pre ++ s :: post ∧ s.name = nm ∧
      migrateLoop eng pre st = (st', none) ∧
      migrateFile eng s st' = (st', some e) := by
  induction l generalizing st with
  | nil => simp [migrateLoop] at h
  | cons s rest ih =>
    rw [migrateLoop_cons] at h
    rcases hm : migrateFile eng s st with ⟨st₂, oe⟩
    rw [hm] at h
    cases oe with
    | some e' =>
      have hst : st₂ = st := migrateFile_error_state hm
      simp only [Prod.mk.injEq, Option.some.injEq, MigrateErr.script.injEq] at h
      obtain ⟨h1, h2, h3⟩ := h
      subst h1; subst h2; subst h3; subst hst
      exact ⟨[], s, rest, rfl, rfl, rfl, hm⟩
    | none =>
      obtain ⟨pre, s', post, hl, hn, hloop, hfile⟩ := ih st₂ h
      refine ⟨s :: pre, s', post, by simp [hl], hn, ?_, hfile⟩
      rw [migrateLoop_cons, hm]
      exact hloop

/-- Facts from a successful loop: recorded names persist, and every
script of the list had its begin and bookkeeping query succeed and its
name recorded afterwards. -/
theorem migrateLoop_success {σ : Type} (eng : SQLEngine σ) (l : List Script)
    (st st' : DBState σ) (h : migrateLoop eng l st = (st', none)) :
    (∀ x ∈ st.migrations, x ∈ st'.migrations) ∧
    ∀ s ∈ l, s.beginOk = true ∧ s.queryOk = true ∧ s.name ∈ st'.migrations := by
  induction l generalizing st with
  | nil =>
    simp only [migrateLoop, Prod.mk.injEq] at h
    obtain ⟨h1, -⟩ := h
    subst h1
    exact ⟨fun x hx => hx, by simp⟩
  | cons s rest ih =>
    rw [migrateLoop_cons] at h
    rcases hm : migrateFile eng s st with ⟨st₂, oe⟩
    rw [hm] at h
    cases oe with
    | some e' => simp at h
    | none =>
      obtain ⟨hmono, hall⟩ := ih st₂ h
      obtain ⟨hb, hq, hmem, hmono₂⟩ := migrateFile_success hm
      refine ⟨fun x hx => hmono x (hmono₂ x hx), fun s' hs' => ?_⟩
      rcases List.mem_cons.mp hs' with rfl | hs'
      · exact ⟨hb, hq, hmono _ hmem⟩
      · exact hall s' hs'

/-- A loop over scripts that are all recorded (with healthy begin and
query calls) is an error-free no-op. -/
theorem migrateLoop_skips {σ : Type} (eng : SQLEngine σ) (l : List Script)
    (st : DBState σ)
    (h : ∀ s ∈ l, s.beginOk = true ∧ s.queryOk = true ∧ s.name ∈ st.migrations) :
    migrateLoop eng l st = (st, none) := by
  induction l with
  | nil => rfl
  | cons s rest ih =>
    obtain ⟨hb, hq, hm⟩ := h s (List.mem_cons_self s rest)
    rw [migrateLoop_cons, migrateFile_skip eng hb hq hm]
    exact ih (fun s' hs' => h s' (List.mem_cons_of_mem s hs'))

/-- A successful loop over scripts none of which is recorded appends
exactly their names, in order. -/
theorem migrateLoop_fresh {σ : Type} (eng : SQLEngine σ) (l : List Script)
    (st st' : DBState σ) (hnd : (l.map Script.name).Nodup)
    (hdisj : ∀ s ∈ l, s.name ∉ st.migrations)
    (h : migrateLoop eng l st = (st', none)) :
    st'.migrations = st.migrations ++ l.map Script.name := by
  induction l generalizing st with
  | nil =>
    simp only [migrateLoop, Prod.mk.injEq] at h
    obtain ⟨h1, -⟩ := h
    subst h1
    simp
  | cons s rest ih =>
    rw [migrateLoop_cons] at h
    rcases hm : migrateFile eng s st with ⟨st₂, oe⟩
    rw [hm] at h
    cases oe with
    | some e' => simp at h
    | none =>
      have happ : st₂.migrations = st.migrations ++ [s.name] :=
        migrateFile_success_fresh hm (hdisj s (List.mem_cons_self s rest))
      have hnd' : (rest.map Script.name).Nodup := (List.nodup_cons.mp hnd).2
      have hdisj' : ∀ s' ∈ rest, s'.name ∉ st₂.migrations := by
        intro s' hs'
        rw [happ]
        simp only [List.mem_append, List.mem_singleton]
        push_neg
        refine ⟨hdisj s' (List.mem_cons_of_mem s hs'), ?_⟩
        intro hcontr
        exact (List.nodup_cons.mp hnd).1 (hcontr ▸ List.mem_map_of_mem Script.name hs')
      have := ih st₂ hnd' hdisj' h
      rw [this, happ]
      simp

/-- C1: when `Migrate` fails on a script, the error wraps that
script's name; the scripts are processed in lexicographic order and
the run decomposes as a successful prefix followed by the failing
script, whose per-script transaction rolled back (it erred from the
returned state and left it unchanged) — so when the failure lies past
the bookkeeping check (read, execute, insert or commit), the failing
script's bookkeeping row is absent from the final state; the scripts
after the failing one in sort order contribute nothing to the result
(they never execute). -/
theorem migrate_failure_atomic {σ : Type} (eng : SQLEngine σ) (createOk : Bool)
    (fs : List Script) (st st' : DBState σ) (nm : String) (e : MigStepErr)
    (h : Migrate eng createOk fs st = (st', some (.script nm e))) :
    List.Sorted (fun a b : Script => strLeB a.name b.name = true) (sortScripts fs) ∧
    ∃ pre s post, sortScripts fs = pre ++ s :: post ∧ s.name = nm ∧
      migrateLoop eng pre st = (st', none) ∧
      migrateFile eng s st' = (st', some e) ∧
      ((e = .readFail ∨ e = .execFail ∨ e = .insertFail ∨ e = .commitFail) →
        nm ∉ st'.migrations) := by
  refine ⟨List.sorted_insertionSort _ _, ?_⟩
  unfold Migrate at h
  split at h
  · simp at h
  · obtain ⟨pre, s, post, hl, hn, hloop, hfile⟩ :=
      migrateLoop_error eng (sortScripts fs) st st' nm e h
    refine ⟨pre, s, post, hl, hn, hloop, hfile, fun he => ?_⟩
    have hnr : s.name ∉ st'.migrations := by
      refine migrateFile_error_not_recorded hfile ?_ ?_ <;>
        rcases he with rfl | rfl | rfl | rfl <;> simp
    rw [hn] at hnr
    exact hnr

/-- Witness for C1: three scripts, listed out of order; the middle one
(in sort order) fails statement execution.  The run keeps the first
script's effects, reports the failing script's name with the execution
error, leaves its bookkeeping row absent, and never touches the third
script. -/
theorem migrate_failure_atomic_witness :
    List.Sorted (fun a b : Script => strLeB a.name b.name = true)
      (sortScripts [demoScriptC, demoScriptA, demoScriptBad]) ∧
    ∃ pre s post,
      sortScripts [demoScriptC, demoScriptA, demoScriptBad] = pre ++ s :: post ∧
      s.name = "migration/00002_b.sql" ∧
      migrateLoop demoEngine pre ⟨[], []⟩ =
        (⟨["CREATE A"], ["migration/00001_a.sql"]⟩, none) ∧
      migrateFile demoEngine s ⟨["CREATE A"], ["migration/00001_a.sql"]⟩ =
        (⟨["CREATE A"], ["migration/00001_a.sql"]⟩, some .execFail) ∧
      ((MigStepErr.execFail = .readFail ∨ MigStepErr.execFail = .execFail ∨
        MigStepErr.execFail = .insertFail ∨ MigStepErr.execFail = .commitFail) →
        "migration/00002_b.sql" ∉
          (⟨["CREATE A"], ["migration/00001_a.sql"]⟩ : DBState (List String)).migrations) :=
  migrate_failure_atomic demoEngine true [demoScriptC, demoScriptA, demoScriptBad]
    ⟨[], []⟩ ⟨["CREATE A"], ["migration/00001_a.sql"]⟩
    "migration/00002_b.sql" .execFail (by decide)

/-- C2: `Migrate` is idempotent: after one successful run, running the
same collection again is an error-free no-op (the returned state — the
schema together with the bookkeeping table — is unchanged); any
already-recorded script name (in particular any script of any superset
collection) is skipped by its `migrateFile`, leaving the state
unchanged; and a successful run over uniquely-named scripts starting
from an empty bookkeeping table records exactly those names. -/
theorem migrate_idempotent {σ : Type} (eng : SQLEngine σ) (createOk : Bool)
    (fs : List Script) (st₀ st₁ : DBState σ)
    (h : Migrate eng createOk fs st₀ = (st₁, none)) :
    Migrate eng createOk fs st₁ = (st₁, none) ∧
    (∀ s : Script, s.name ∈ st₁.migrations → s.beginOk = true → s.queryOk = true →
      migrateFile eng s st₁ = (st₁, none)) ∧
    ((fs.map Script.name).Nodup → st₀.migrations = [] →
      st₁.migrations.Perm (fs.map Script.name) ∧
      st₁.migrations.length = fs.length) := by
  unfold Migrate at h ⊢
  split at h
  · simp at h
  · next hcreate =>
    rw [if_neg hcreate]
    obtain ⟨hmono, hall⟩ := migrateLoop_success eng (sortScripts fs) st₀ st₁ h
    refine ⟨migrateLoop_skips eng _ st₁ hall, ?_, ?_⟩
    · exact fun s hm hb hq => migrateFile_skip eng hb hq hm
    · intro hnd h0
      have hp : (sortScripts fs).Perm fs := List.perm_insertionSort _ _
      have hnd' : ((sortScripts fs).map Script.name).Nodup :=
        ((hp.map Script.name).nodup_iff).mpr hnd
      have hdisj : ∀ s ∈ sortScripts fs, s.name ∉ st₀.migrations := by
        simp [h0]
      have hfresh := migrateLoop_fresh eng (sortScripts fs) st₀ st₁ hnd' hdisj h
      rw [hfresh, h0]
      have hpm : ((sortScripts fs).map Script.name).Perm (fs.map Script.name) :=
        hp.map Script.name
      constructor
      · simpa using hpm
      · simpa using hpm.length_eq

/-- Witness for C2: two healthy scripts from a fresh database — the
second run returns the state of the first unchanged, with no error. -/
theorem migrate_idempotent_witness :
    Migrate demoEngine true [demoScriptC, demoScriptA]
      ⟨["CREATE A", "CREATE C"], ["migration/00001_a.sql", "migration/00003_c.sql"]⟩ =
      (⟨["CREATE A", "CREATE C"], ["migration/00001_a.sql", "migration/00003_c.sql"]⟩, none) :=
  (migrate_idempotent demoEngine true [demoScriptC, demoScriptA] ⟨[], []⟩
    ⟨["CREATE A", "CREATE C"], ["migration/00001_a.sql", "migration/00003_c.sql"]⟩
    (by decide)).1

/-- Witness for C7's amended theorem at a concrete persistent path. -/
theorem open_persistent_read_pool_readonly_witness :
    (⟨"/data/app.db", baseParams ++ [("mode", "ro")]⟩ : DSNConf).readOnly ∧
    (⟨"/data/app.db", baseParams ++ [("mode", "ro")]⟩ : DSNConf).path =
      (⟨"/data/app.db", baseParams⟩ : DSNConf).path ∧
    (⟨"/data/app.db", baseParams ++ [("mode", "ro")]⟩ : DSNConf).params =
      (⟨"/data/app.db", baseParams⟩ : DSNConf).params ++ [("mode", "ro")] :=
  open_persistent_read_pool_readonly happyEnv "/data/app.db"
    [.mkdirAll "/data", .sqlOpen ⟨"/data/app.db", baseParams⟩,
     .sqlOpen ⟨"/data/app.db", baseParams ++ [("mode", "ro")]⟩]
    ⟨"/data/app.db", baseParams⟩ ⟨"/data/app.db", baseParams ++ [("mode", "ro")]⟩
    (by decide) (by decide) (by decide)

end GoSqlite
